import Mathlib

/- Verification of the video_maker repository (config.py, utils.py, main.py,
   video_composer.py) against its natural-language specification.

   Shallow embedding conventions:
   * durations, time stamps and scale factors (Python floats) are modelled as
     rationals with exact arithmetic;
   * Python int() applied to a nonnegative float is Int.floor;
   * Python floor division // on integers is Int.fdiv;
   * Python functions that catch exceptions internally are total Lean
     functions; a function whose exceptions may escape returns Except;
   * filenames compare the way Python compares str values, code point by
     code point, i.e. lexicographically on their character lists. -/

namespace VideoMaker

/-- Configuration constant ZOOM_FACTOR from config.py (line 43). -/
def ZOOM_FACTOR : ℚ := 1.2

/-- Configuration constant AUDIO_SYNC_MODE from config.py (line 94). -/
def AUDIO_SYNC_MODE : String := "loop_audio"

/-- Configuration constant MAX_AUDIO_LOOPS from config.py (line 97). -/
def MAX_AUDIO_LOOPS : ℤ := 3

/-- Ordering used by Python list.sort() on the image paths collected in
VideoComposer._process_images: all discovered paths live in the same folder,
so Path comparison reduces to comparing the filename strings, which Python
orders lexicographically by code point, i.e. by their character lists. -/
def fileLe (a b : String) : Prop := a.data ≤ b.data

instance fileLe.decidableRel : DecidableRel fileLe :=
  fun a b => inferInstanceAs (Decidable (a.data ≤ b.data))

instance fileLe.isTotal : IsTotal String fileLe :=
  ⟨fun a b => le_total a.data b.data⟩

instance fileLe.isTrans : IsTrans String fileLe :=
  ⟨fun _ _ _ h h₂ => le_trans h h₂⟩

/-- Embeds the sorting step of VideoComposer._process_images (line 136):
image_files.sort() puts the discovered files in lexicographic filename
order before any image is processed. -/
def sortImageFiles (files : List String) : List String :=
  List.insertionSort fileLe files

/-- Embeds loops_needed from the looping branch of VideoComposer._add_audio
(line 314): int(video_duration / audio_duration) + 1.  The quotient is
positive there, so Python int() truncation is the floor. -/
def loops_needed (audioDur videoDur : ℚ) : ℤ :=
  ⌊videoDur / audioDur⌋ + 1

/-- Duration of clip.subclipped(0, stop): the clip is cut at stop (never
extended beyond its own duration). -/
def subclipDur (clipDur stop : ℚ) : ℚ := min stop clipDur

/-- Which branch of the duration reconciliation in _add_audio executed. -/
inductive SyncBranch where
  | passthrough
  | cutAudio
  | loopAudio (loops : ℤ)
  | cutVideo
  deriving DecidableEq

/-- Durations of the video and audio tracks after _add_audio reconciled
them, together with the branch taken. -/
structure AVDurations where
  videoDur : ℚ
  audioDur : ℚ
  branch : SyncBranch
  deriving DecidableEq

/-- Embeds the duration reconciliation of VideoComposer._add_audio
(lines 305-323).  The method can see the configured sync mode through
self.config but never reads it, hence the unused syncMode argument:
every branch below is taken on durations alone.  In the looping branch
loops_needed copies are concatenated (duration loops * audio) and the
concatenation is cut at video_duration; no cap is applied to loops_needed. -/
def add_audio (_syncMode : String) (audioDur videoDur : ℚ) : AVDurations :=
  if audioDur > videoDur then
    { videoDur := videoDur
      audioDur := subclipDur audioDur videoDur
      branch := SyncBranch.cutAudio }
  else if audioDur < videoDur then
    if audioDur * 2 ≥ videoDur then
      let loops := loops_needed audioDur videoDur
      { videoDur := videoDur
        audioDur := subclipDur ((loops : ℚ) * audioDur) videoDur
        branch := SyncBranch.loopAudio loops }
    else
      { videoDur := audioDur
        audioDur := audioDur
        branch := SyncBranch.cutVideo }
  else
    { videoDur := videoDur
      audioDur := audioDur
      branch := SyncBranch.passthrough }

/-- Claim C10: whenever the audio-looping branch of _add_audio executes
(audio shorter than video, one-loop heuristic audio * 2 >= video satisfied,
positive audio duration), loops_needed = int(video/audio) + 1 is at most 3,
so at most 3 copies of the audio track are ever concatenated, independent
of any configured maximum. -/
theorem C10_loops_bounded (a v : ℚ) (ha : 0 < a) (_hav : a < v)
    (hheur : a * 2 ≥ v) : loops_needed a v ≤ 3 := by
  have hdiv : v / a ≤ 2 := by
    rw [div_le_iff₀ ha]
    linarith
  have hfl : ⌊v / a⌋ ≤ ⌊(2 : ℚ)⌋ := Int.floor_le_floor hdiv
  have h2 : ⌊(2 : ℚ)⌋ = 2 := by norm_num
  rw [loops_needed]
  omega

/-- Witness for claim C10 at audio = 3 s, video = 5 s. -/
theorem C10_loops_bounded_witness :
    (0 : ℚ) < 3 ∧ (3 : ℚ) < 5 ∧ (3 : ℚ) * 2 ≥ 5 ∧ loops_needed 3 5 ≤ 3 :=
  ⟨by norm_num, by norm_num, by norm_num,
    C10_loops_bounded 3 5 (by norm_num) (by norm_num) (by norm_num)⟩

/-- Claim C8: for every set of discovered image files, images are processed
in lexicographic filename order (a string sort, not a numeric one): the
sorted list is ordered under fileLe and is a permutation of the input, and
the files a2.jpg, a10.jpg, a1.jpg come out in the order a1, a10, a2. -/
theorem C8_lexicographic_order :
    (∀ files : List String,
        List.Sorted fileLe (sortImageFiles files) ∧
        (sortImageFiles files).Perm files) ∧
    sortImageFiles ["a2.jpg", "a10.jpg", "a1.jpg"] =
      ["a1.jpg", "a10.jpg", "a2.jpg"] := by
  refine ⟨fun files => ⟨List.sorted_insertionSort fileLe files,
    List.perm_insertionSort fileLe files⟩, ?_⟩
  decide

/-- Zoom intensity hardcoded inside VideoComposer._add_zoom_effect
(line 259); it happens to coincide with config.py's ZOOM_FACTOR. -/
def zoom_factor : ℚ := 1.2

/-- Start and end scales chosen in _add_zoom_effect (lines 262-271) from the
randomly drawn direction: zoom in runs from zoom_factor down to 1.0, zoom
out from 1.0 up to zoom_factor. -/
def zoomScales (zoomIn : Bool) : ℚ × ℚ :=
  if zoomIn then (zoom_factor, 1) else (1, zoom_factor)

/-- Embeds resize_func from _add_zoom_effect (lines 274-277): linear
interpolation of the scale over the clip duration. -/
def resize_func (startScale endScale duration t : ℚ) : ℚ :=
  startScale + (endScale - startScale) * (t / duration)

/-- Claim C5: for every motion segment with duration d > 0 and either zoom
direction, the scale trajectory is linear with scale(0) = start_scale and
scale(d) = end_scale, the trajectory is monotonic, and one of
start_scale/end_scale equals 1.0 while the other equals the configured zoom
factor, which exceeds 1.0. -/
theorem C5_zoom_trajectory (d : ℚ) (zoomIn : Bool) (hd : 0 < d) :
    resize_func (zoomScales zoomIn).1 (zoomScales zoomIn).2 d 0 =
      (zoomScales zoomIn).1 ∧
    resize_func (zoomScales zoomIn).1 (zoomScales zoomIn).2 d d =
      (zoomScales zoomIn).2 ∧
    ((∀ t₁ t₂ : ℚ, t₁ ≤ t₂ →
        resize_func (zoomScales zoomIn).1 (zoomScales zoomIn).2 d t₁ ≤
        resize_func (zoomScales zoomIn).1 (zoomScales zoomIn).2 d t₂) ∨
     (∀ t₁ t₂ : ℚ, t₁ ≤ t₂ →
        resize_func (zoomScales zoomIn).1 (zoomScales zoomIn).2 d t₂ ≤
        resize_func (zoomScales zoomIn).1 (zoomScales zoomIn).2 d t₁)) ∧
    (((zoomScales zoomIn).1 = 1 ∧ (zoomScales zoomIn).2 = ZOOM_FACTOR) ∨
     ((zoomScales zoomIn).1 = ZOOM_FACTOR ∧ (zoomScales zoomIn).2 = 1)) ∧
    1 < ZOOM_FACTOR := by
  have hdne : d ≠ 0 := ne_of_gt hd
  refine ⟨?_, ?_, ?_, ?_, by norm_num [ZOOM_FACTOR]⟩
  · simp [resize_func]
  · rw [resize_func, div_self hdne]
    ring
  · cases zoomIn with
    | false =>
        left
        intro t₁ t₂ ht
        have hq : t₁ / d ≤ t₂ / d := by
          apply div_le_div_of_nonneg_right ht hd.le
        simp only [resize_func, zoomScales, zoom_factor, if_neg]
        norm_num
        linarith
    | true =>
        right
        intro t₁ t₂ ht
        have hq : t₁ / d ≤ t₂ / d := by
          apply div_le_div_of_nonneg_right ht hd.le
        simp only [resize_func, zoomScales, zoom_factor, if_pos]
        norm_num
        linarith
  · cases zoomIn with
    | false => left; norm_num [zoomScales, zoom_factor, ZOOM_FACTOR]
    | true => right; norm_num [zoomScales, zoom_factor, ZOOM_FACTOR]

/-- Witness for claim C5 at duration 2 s, zoom-in direction. -/
theorem C5_zoom_trajectory_witness :
    (0 : ℚ) < 2 ∧
    (resize_func (zoomScales true).1 (zoomScales true).2 2 0 =
        (zoomScales true).1 ∧
      resize_func (zoomScales true).1 (zoomScales true).2 2 2 =
        (zoomScales true).2 ∧
      ((∀ t₁ t₂ : ℚ, t₁ ≤ t₂ →
          resize_func (zoomScales true).1 (zoomScales true).2 2 t₁ ≤
          resize_func (zoomScales true).1 (zoomScales true).2 2 t₂) ∨
       (∀ t₁ t₂ : ℚ, t₁ ≤ t₂ →
          resize_func (zoomScales true).1 (zoomScales true).2 2 t₂ ≤
          resize_func (zoomScales true).1 (zoomScales true).2 2 t₁)) ∧
      (((zoomScales true).1 = 1 ∧ (zoomScales true).2 = ZOOM_FACTOR) ∨
       ((zoomScales true).1 = ZOOM_FACTOR ∧ (zoomScales true).2 = 1)) ∧
      1 < ZOOM_FACTOR) :=
  ⟨by norm_num, C5_zoom_trajectory 2 true (by norm_num)⟩

/-- Claim C1 (counterexample): the particular case cited by the claim,
audio = 3 s and video = 10 s, does not satisfy the one-loop heuristic
(3 * 2 < 10), so _add_audio does not loop the audio at all: it truncates
the video to 3 s and leaves the audio at 3 s.  The reconciled audio
duration is 3, not the 3 * 3 = 9 the claim derives from a max_loops cap
that does not exist in the code. -/
theorem C1_counterexample :
    (add_audio "loop_audio" 3 10).branch = SyncBranch.cutVideo ∧
    (add_audio "loop_audio" 3 10).audioDur = 3 ∧
    ¬ (add_audio "loop_audio" 3 10).audioDur = 9 := by
  refine ⟨?_, ?_, ?_⟩ <;> norm_num [add_audio, subclipDur, loops_needed]

/-- Claim C1 (amended): for audio shorter than video with the one-loop
heuristic audio * 2 >= video satisfied, _add_audio concatenates
loops_needed = floor(video/audio) + 1 copies of the audio — no max_loops
cap is applied (none is needed, the heuristic bounds loops_needed by 3) —
and truncates the concatenation to video_duration, so the reconciled audio
duration equals video_duration exactly, whatever the nominal sync mode. -/
theorem C1_loop_branch (syncMode : String) (a v : ℚ) (ha : 0 < a)
    (hav : a < v) (hheur : a * 2 ≥ v) :
    (add_audio syncMode a v).branch = SyncBranch.loopAudio (loops_needed a v) ∧
    (add_audio syncMode a v).audioDur = v ∧
    (add_audio syncMode a v).videoDur = v := by
  have hngt : ¬ a > v := not_lt.mpr (le_of_lt hav)
  have hcut : v ≤ (↑(loops_needed a v) : ℚ) * a := by
    have hlt : v / a < (↑⌊v / a⌋ : ℚ) + 1 := Int.lt_floor_add_one (v / a)
    have hmul : (v / a) * a < ((↑⌊v / a⌋ : ℚ) + 1) * a :=
      mul_lt_mul_of_pos_right hlt ha
    rw [div_mul_cancel₀ v (ne_of_gt ha)] at hmul
    rw [loops_needed]
    push_cast
    linarith
  rw [add_audio]
  simp only [if_neg hngt, if_pos hav, if_pos hheur]
  simp [subclipDur, min_eq_left hcut]

/-- Witness for claim C1 (amended) at audio = 2 s, video = 3 s under the
nominal loop_audio mode. -/
theorem C1_loop_branch_witness :
    (0 : ℚ) < 2 ∧ (2 : ℚ) < 3 ∧ (2 : ℚ) * 2 ≥ 3 ∧
    ((add_audio "loop_audio" 2 3).branch =
        SyncBranch.loopAudio (loops_needed 2 3) ∧
      (add_audio "loop_audio" 2 3).audioDur = 3 ∧
      (add_audio "loop_audio" 2 3).videoDur = 3) :=
  ⟨by norm_num, by norm_num, by norm_num,
    C1_loop_branch "loop_audio" 2 3 (by norm_num) (by norm_num) (by norm_num)⟩

/-- Claim C4: whenever audio * 2 < video (the one-loop heuristic fails) and
the audio duration is positive, _add_audio truncates the video timeline to
the audio duration, regardless of the nominal sync policy value (which the
method never reads). -/
theorem C4_cut_video_fallback (syncMode : String) (a v : ℚ) (ha : 0 < a)
    (hshort : a * 2 < v) :
    (add_audio syncMode a v).videoDur = a ∧
    (add_audio syncMode a v).branch = SyncBranch.cutVideo := by
  have hav : a < v := by linarith
  have hngt : ¬ a > v := not_lt.mpr (le_of_lt hav)
  have hnheur : ¬ a * 2 ≥ v := not_le.mpr hshort
  rw [add_audio]
  simp only [if_neg hngt, if_pos hav, if_neg hnheur]
  exact ⟨trivial, trivial⟩

/-- Witness for claim C4 at audio = 4 s, video = 10 s with the nominal
policy string set to cut_video, matching the spec example. -/
theorem C4_cut_video_fallback_witness :
    (0 : ℚ) < 4 ∧ (4 : ℚ) * 2 < 10 ∧
    ((add_audio "cut_video" 4 10).videoDur = 4 ∧
      (add_audio "cut_video" 4 10).branch = SyncBranch.cutVideo) :=
  ⟨by norm_num, by norm_num,
    C4_cut_video_fallback "cut_video" 4 10 (by norm_num) (by norm_num)⟩

/-- Geometry computed by VideoComposer._resize_image: the background canvas
size, the resized image size and the centred paste offset. -/
structure ResizedImage where
  canvasW : ℕ
  canvasH : ℕ
  newW : ℤ
  newH : ℤ
  pasteX : ℤ
  pasteY : ℤ
  deriving DecidableEq

/-- Embeds the geometry of VideoComposer._resize_image (lines 208-233):
scale by the smaller of the two target/original side ratios, truncate the
scaled sides with int() (floor, the values are nonnegative), build a
target-sized black background and paste at the centred offset computed
with Python floor division. -/
def resize_image (ow oh tw th : ℕ) : ResizedImage :=
  let widthRatio : ℚ := (tw : ℚ) / (ow : ℚ)
  let heightRatio : ℚ := (th : ℚ) / (oh : ℚ)
  let scaleRatio : ℚ := min widthRatio heightRatio
  let newW : ℤ := ⌊(ow : ℚ) * scaleRatio⌋
  let newH : ℤ := ⌊(oh : ℚ) * scaleRatio⌋
  { canvasW := tw
    canvasH := th
    newW := newW
    newH := newH
    pasteX := ((tw : ℤ) - newW).fdiv 2
    pasteY := ((th : ℤ) - newH).fdiv 2 }

/-- Claim C3: for every source image with positive dimensions, the emitted
frame has exactly the canvas dimensions, the scaled sides are the floors of
the originals scaled by min(target/original), the paste offset is the
centred one computed with floor division, and the scaled content never
exceeds the canvas bounds on either axis. -/
theorem C3_resize_bounds (ow oh tw th : ℕ) (how : 0 < ow) (hoh : 0 < oh) :
    (resize_image ow oh tw th).canvasW = tw ∧
    (resize_image ow oh tw th).canvasH = th ∧
    (resize_image ow oh tw th).newW =
      ⌊(ow : ℚ) * min ((tw : ℚ) / (ow : ℚ)) ((th : ℚ) / (oh : ℚ))⌋ ∧
    (resize_image ow oh tw th).newH =
      ⌊(oh : ℚ) * min ((tw : ℚ) / (ow : ℚ)) ((th : ℚ) / (oh : ℚ))⌋ ∧
    (resize_image ow oh tw th).pasteX =
      ((tw : ℤ) - (resize_image ow oh tw th).newW).fdiv 2 ∧
    (resize_image ow oh tw th).pasteY =
      ((th : ℤ) - (resize_image ow oh tw th).newH).fdiv 2 ∧
    0 ≤ (resize_image ow oh tw th).newW ∧
    0 ≤ (resize_image ow oh tw th).newH ∧
    0 ≤ (resize_image ow oh tw th).pasteX ∧
    0 ≤ (resize_image ow oh tw th).pasteY ∧
    (resize_image ow oh tw th).pasteX + (resize_image ow oh tw th).newW ≤ tw ∧
    (resize_image ow oh tw th).pasteY + (resize_image ow oh tw th).newH ≤ th := by
  have howq : (0 : ℚ) < (ow : ℚ) := by exact_mod_cast how
  have hohq : (0 : ℚ) < (oh : ℚ) := by exact_mod_cast hoh
  have hscale0 : (0 : ℚ) ≤ min ((tw : ℚ) / (ow : ℚ)) ((th : ℚ) / (oh : ℚ)) := by
    apply le_min <;> positivity
  have hWle : ⌊(ow : ℚ) * min ((tw : ℚ) / (ow : ℚ)) ((th : ℚ) / (oh : ℚ))⌋ ≤ (tw : ℤ) := by
    have h₁ : (ow : ℚ) * min ((tw : ℚ) / (ow : ℚ)) ((th : ℚ) / (oh : ℚ)) ≤ (tw : ℚ) := by
      have h₂ : (ow : ℚ) * min ((tw : ℚ) / (ow : ℚ)) ((th : ℚ) / (oh : ℚ)) ≤
          (ow : ℚ) * ((tw : ℚ) / (ow : ℚ)) :=
        mul_le_mul_of_nonneg_left (min_le_left _ _) (le_of_lt howq)
      calc (ow : ℚ) * min ((tw : ℚ) / (ow : ℚ)) ((th : ℚ) / (oh : ℚ)) ≤
            (ow : ℚ) * ((tw : ℚ) / (ow : ℚ)) := h₂
        _ = (tw : ℚ) := by rw [mul_comm]; exact div_mul_cancel₀ _ (ne_of_gt howq)
    calc ⌊(ow : ℚ) * min ((tw : ℚ) / (ow : ℚ)) ((th : ℚ) / (oh : ℚ))⌋ ≤ ⌊(tw : ℚ)⌋ :=
          Int.floor_le_floor h₁
      _ = (tw : ℤ) := Int.floor_natCast tw
  have hHle : ⌊(oh : ℚ) * min ((tw : ℚ) / (ow : ℚ)) ((th : ℚ) / (oh : ℚ))⌋ ≤ (th : ℤ) := by
    have h₁ : (oh : ℚ) * min ((tw : ℚ) / (ow : ℚ)) ((th : ℚ) / (oh : ℚ)) ≤ (th : ℚ) := by
      have h₂ : (oh : ℚ) * min ((tw : ℚ) / (ow : ℚ)) ((th : ℚ) / (oh : ℚ)) ≤
          (oh : ℚ) * ((th : ℚ) / (oh : ℚ)) :=
        mul_le_mul_of_nonneg_left (min_le_right _ _) (le_of_lt hohq)
      calc (oh : ℚ) * min ((tw : ℚ) / (ow : ℚ)) ((th : ℚ) / (oh : ℚ)) ≤
            (oh : ℚ) * ((th : ℚ) / (oh : ℚ)) := h₂
        _ = (th : ℚ) := by rw [mul_comm]; exact div_mul_cancel₀ _ (ne_of_gt hohq)
    calc ⌊(oh : ℚ) * min ((tw : ℚ) / (ow : ℚ)) ((th : ℚ) / (oh : ℚ))⌋ ≤ ⌊(th : ℚ)⌋ :=
          Int.floor_le_floor h₁
      _ = (th : ℤ) := Int.floor_natCast th
  have hW0 : 0 ≤ ⌊(ow : ℚ) * min ((tw : ℚ) / (ow : ℚ)) ((th : ℚ) / (oh : ℚ))⌋ :=
    Int.floor_nonneg.mpr (mul_nonneg (le_of_lt howq) hscale0)
  have hH0 : 0 ≤ ⌊(oh : ℚ) * min ((tw : ℚ) / (ow : ℚ)) ((th : ℚ) / (oh : ℚ))⌋ :=
    Int.floor_nonneg.mpr (mul_nonneg (le_of_lt hohq) hscale0)
  have hfdivW := Int.fdiv_eq_ediv
    ((tw : ℤ) - ⌊(ow : ℚ) * min ((tw : ℚ) / (ow : ℚ)) ((th : ℚ) / (oh : ℚ))⌋)
    (by norm_num : (0 : ℤ) ≤ 2)
  have hfdivH := Int.fdiv_eq_ediv
    ((th : ℤ) - ⌊(oh : ℚ) * min ((tw : ℚ) / (ow : ℚ)) ((th : ℚ) / (oh : ℚ))⌋)
    (by norm_num : (0 : ℤ) ≤ 2)
  have hedivW := Int.ediv_le_self (2 : ℤ) (sub_nonneg.mpr hWle)
  have hedivH := Int.ediv_le_self (2 : ℤ) (sub_nonneg.mpr hHle)
  have hpx0 : 0 ≤ ((tw : ℤ) -
      ⌊(ow : ℚ) * min ((tw : ℚ) / (ow : ℚ)) ((th : ℚ) / (oh : ℚ))⌋).fdiv 2 :=
    Int.fdiv_nonneg (sub_nonneg.mpr hWle) (by norm_num)
  have hpy0 : 0 ≤ ((th : ℤ) -
      ⌊(oh : ℚ) * min ((tw : ℚ) / (ow : ℚ)) ((th : ℚ) / (oh : ℚ))⌋).fdiv 2 :=
    Int.fdiv_nonneg (sub_nonneg.mpr hHle) (by norm_num)
  have hdefW : (resize_image ow oh tw th).newW =
      ⌊(ow : ℚ) * min ((tw : ℚ) / (ow : ℚ)) ((th : ℚ) / (oh : ℚ))⌋ := rfl
  have hdefH : (resize_image ow oh tw th).newH =
      ⌊(oh : ℚ) * min ((tw : ℚ) / (ow : ℚ)) ((th : ℚ) / (oh : ℚ))⌋ := rfl
  have hdefX : (resize_image ow oh tw th).pasteX =
      ((tw : ℤ) - ⌊(ow : ℚ) * min ((tw : ℚ) / (ow : ℚ)) ((th : ℚ) / (oh : ℚ))⌋).fdiv 2 := rfl
  have hdefY : (resize_image ow oh tw th).pasteY =
      ((th : ℤ) - ⌊(oh : ℚ) * min ((tw : ℚ) / (ow : ℚ)) ((th : ℚ) / (oh : ℚ))⌋).fdiv 2 := rfl
  refine ⟨rfl, rfl, rfl, rfl, rfl, rfl, hW0, hH0, hpx0, hpy0, ?_, ?_⟩
  · rw [hdefW, hdefX, hfdivW]
    omega
  · rw [hdefH, hdefY, hfdivH]
    omega

/-- Witness for claim C3 at a 2 x 1 source image on a 4 x 3 canvas: the
scale is 2, the resized image is 4 x 2 and it is pasted at offset (0, 0). -/
theorem C3_resize_bounds_witness :
    0 < 2 ∧ 0 < 1 ∧
    ((resize_image 2 1 4 3).canvasW = 4 ∧
      (resize_image 2 1 4 3).canvasH = 3 ∧
      (resize_image 2 1 4 3).newW =
        ⌊(2 : ℚ) * min ((4 : ℚ) / (2 : ℚ)) ((3 : ℚ) / (1 : ℚ))⌋ ∧
      (resize_image 2 1 4 3).newH =
        ⌊(1 : ℚ) * min ((4 : ℚ) / (2 : ℚ)) ((3 : ℚ) / (1 : ℚ))⌋ ∧
      (resize_image 2 1 4 3).pasteX =
        ((4 : ℤ) - (resize_image 2 1 4 3).newW).fdiv 2 ∧
      (resize_image 2 1 4 3).pasteY =
        ((3 : ℤ) - (resize_image 2 1 4 3).newH).fdiv 2 ∧
      0 ≤ (resize_image 2 1 4 3).newW ∧
      0 ≤ (resize_image 2 1 4 3).newH ∧
      0 ≤ (resize_image 2 1 4 3).pasteX ∧
      0 ≤ (resize_image 2 1 4 3).pasteY ∧
      (resize_image 2 1 4 3).pasteX + (resize_image 2 1 4 3).newW ≤ 4 ∧
      (resize_image 2 1 4 3).pasteY + (resize_image 2 1 4 3).newH ≤ 3) := by
  have h := C3_resize_bounds 2 1 4 3 (by norm_num) (by norm_num)
  exact ⟨by norm_num, by norm_num, by exact_mod_cast h⟩

/-- SRT timestamp as pysrt hands it to _srt_time_to_seconds. -/
structure SrtTime where
  hours : ℕ
  minutes : ℕ
  seconds : ℕ
  milliseconds : ℕ
  deriving DecidableEq

/-- Embeds VideoComposer._srt_time_to_seconds (lines 405-410). -/
def srt_time_to_seconds (t : SrtTime) : ℚ :=
  (t.hours : ℚ) * 3600 + (t.minutes : ℚ) * 60 + (t.seconds : ℚ) +
    (t.milliseconds : ℚ) / 1000

/-- One parsed subtitle cue.  renderOk records whether the TextClip
construction for this cue succeeds; _add_subtitles catches a per-cue
failure and skips only that cue. -/
structure Subtitle where
  start : SrtTime
  stop : SrtTime
  text : String
  renderOk : Bool
  deriving DecidableEq

/-- Timing of one TextClip built by _add_subtitles: with_duration(duration)
and with_start(start_time). -/
structure TextClipSpec where
  text : String
  start : ℚ
  duration : ℚ
  deriving DecidableEq

/-- Embeds the cue loop of VideoComposer._add_subtitles (lines 353-379):
each cue is converted to seconds and becomes a TextClip with the cue's own
start and duration.  The video duration is available through video_clip but
is never consulted: no cue is clipped or dropped against it. -/
def add_subtitles (subs : List Subtitle) (_videoDur : ℚ) : List TextClipSpec :=
  subs.filterMap fun s =>
    if s.renderOk then
      let startTime := srt_time_to_seconds s.start
      let endTime := srt_time_to_seconds s.stop
      some { text := s.text, start := startTime, duration := endTime - startTime }
    else
      none

/-- Claim C2 (counterexample): against final_duration = 10 the cue
10.5 s - 11 s is retained (the claim says it is dropped), and the cue
9.5 s - 11 s keeps its end time 11 (the claim says it is clipped to 10). -/
theorem C2_counterexample :
    (add_subtitles [⟨⟨0, 0, 10, 500⟩, ⟨0, 0, 11, 0⟩, "X", true⟩] 10).length = 1 ∧
    ((add_subtitles [⟨⟨0, 0, 9, 500⟩, ⟨0, 0, 11, 0⟩, "X", true⟩] 10).map
      (fun c => c.start + c.duration)) = [11] := by
  constructor
  · rfl
  · norm_num [add_subtitles, srt_time_to_seconds, List.filterMap_cons,
      List.filterMap_nil]

/-- Claim C2 (amended): _add_subtitles never clips a cue to the final
duration and never drops a cue for starting at or after it: the result is
the same for every final duration, and it is exactly the renderable cues
mapped to clips that keep the original start and end seconds. -/
theorem C2_no_clipping (subs : List Subtitle) (d₁ d₂ : ℚ) :
    add_subtitles subs d₁ = add_subtitles subs d₂ ∧
    add_subtitles subs d₁ =
      (subs.filter (fun s => s.renderOk)).map (fun s =>
        { text := s.text
          start := srt_time_to_seconds s.start
          duration := srt_time_to_seconds s.stop - srt_time_to_seconds s.start }) := by
  refine ⟨rfl, ?_⟩
  induction subs with
  | nil => rfl
  | cons s rest ih =>
      cases hr : s.renderOk <;>
        simp [add_subtitles, List.filterMap_cons, hr, List.filter_cons] at ih ⊢ <;>
        exact ih

/-- Result of _add_audio seen from create_video: the (possibly truncated)
video duration and the attached audio duration, none when the method fell
back to returning the video without audio. -/
structure AVTrack where
  videoDur : ℚ
  audio : Option ℚ
  deriving DecidableEq

/-- Embeds the whole of VideoComposer._add_audio (lines 297-333) including
its try/except: decoding the audio file either yields a duration or raises,
and a raised error is caught, logged and swallowed, returning the original
video with no audio attached. -/
def add_audio_try (syncMode : String) (decoded : Except String ℚ)
    (videoDur : ℚ) : AVTrack :=
  match decoded with
  | Except.error _ => { videoDur := videoDur, audio := none }
  | Except.ok audioDur =>
      let r := add_audio syncMode audioDur videoDur
      { videoDur := r.videoDur, audio := some r.audioDur }

/-- Claim C6 (amended): an undecodable audio track is not fatal and raises
nothing — _add_audio catches the decode error and returns the video
unchanged without audio — and duration mismatches are never fatal either:
every successfully decoded audio track is reconciled and attached, whatever
the durations. -/
theorem C6_audio_errors_nonfatal :
    (∀ (syncMode e : String) (v : ℚ),
        add_audio_try syncMode (Except.error e) v =
          { videoDur := v, audio := none }) ∧
    (∀ (syncMode : String) (a v : ℚ),
        (add_audio_try syncMode (Except.ok a) v).audio =
          some (add_audio syncMode a v).audioDur) :=
  ⟨fun _ _ _ => rfl, fun _ _ _ => rfl⟩

/-- Configuration dictionary as config.validate_config inspects it: a
resolution that is either a well-formed pair or not, and the three numeric
knobs the function checks. -/
structure PyConfig where
  resolution : Option (ℤ × ℤ)
  fps : ℚ
  imageDuration : ℚ
  subtitleFontsize : ℚ
  deriving DecidableEq

/-- Embeds config.validate_config (lines 344-375): it accumulates error
strings and returns the pair (no errors, error list).  It raises nothing. -/
def validate_config (c : PyConfig) : Bool × List String :=
  let errs₀ : List String := []
  let errs₁ :=
    if c.resolution.isNone then errs₀ ++ ["resolution must be a pair"] else errs₀
  let errs₂ :=
    if c.fps ≤ 0 ∨ c.fps > 120 then errs₁ ++ ["fps must be from 1 to 120"] else errs₁
  let errs₃ :=
    if c.imageDuration ≤ 0 then errs₂ ++ ["image duration must be positive"] else errs₂
  let errs₄ :=
    if c.subtitleFontsize ≤ 0 then errs₃ ++ ["fontsize must be positive"] else errs₃
  (errs₄.isEmpty, errs₄)

/-- Clip built by _create_image_clip from one image: resized file path,
display duration, fps and whether the zoom effect was applied. -/
structure ImgClip where
  path : String
  duration : ℚ
  fps : ℕ
  zoomed : Bool
  deriving DecidableEq

/-- Embeds VideoComposer._create_image_clip (lines 170-188): resize the
image (the resized copy lands under temp/), build an ImageClip with
self.image_duration, set the fps and optionally apply the zoom effect.
No validation of the duration occurs anywhere on this path; the
surrounding try/except turns only external image failures into None. -/
def create_image_clip (imageDuration : ℚ) (fps : ℕ) (zoomEnabled : Bool)
    (path : String) : Option ImgClip :=
  some { path := "temp/resized_" ++ path
         duration := imageDuration
         fps := fps
         zoomed := zoomEnabled }

/-- Claim C7 (counterexample): with image_duration = 0 the pipeline does
not reject anything: _create_image_clip happily produces a clip of
duration 0, and validate_config — which the composition path never calls —
merely returns the value (false, errors) instead of raising an
InvalidParameterError. -/
theorem C7_counterexample :
    create_image_clip 0 24 true "a.jpg" =
      some { path := "temp/resized_a.jpg", duration := 0, fps := 24, zoomed := true } ∧
    (validate_config ⟨some (1024, 768), 24, 0, 50⟩).1 = false ∧
    (validate_config ⟨some (1024, 768), 24, 0, 50⟩).2 ≠ [] := by
  refine ⟨rfl, ?_, ?_⟩ <;> norm_num [validate_config]

/-- Claim C7 (amended): a non-positive per-image duration is flagged by
config.validate_config, which returns is_valid = false with an error
message rather than raising, but nothing in the composition path invokes
it: _create_image_clip performs no duration validation and passes any
duration straight into the clip it builds. -/
theorem C7_no_duration_validation (c : PyConfig) (hd : c.imageDuration ≤ 0) :
    (validate_config c).1 = false ∧
    ∀ (fps : ℕ) (zoomEnabled : Bool) (path : String),
      create_image_clip c.imageDuration fps zoomEnabled path =
        some { path := "temp/resized_" ++ path
               duration := c.imageDuration
               fps := fps
               zoomed := zoomEnabled } := by
  refine ⟨?_, fun _ _ _ => rfl⟩
  rw [validate_config]
  simp only [if_pos hd]
  split_ifs <;> simp

/-- Witness for claim C7 (amended) at image_duration = 0. -/
theorem C7_no_duration_validation_witness :
    (0 : ℚ) ≤ 0 ∧
    ((validate_config ⟨some (854, 480), 30, 0, 60⟩).1 = false ∧
      ∀ (fps : ℕ) (zoomEnabled : Bool) (path : String),
        create_image_clip (0 : ℚ) fps zoomEnabled path =
          some { path := "temp/resized_" ++ path
                 duration := (0 : ℚ)
                 fps := fps
                 zoomed := zoomEnabled }) :=
  ⟨by norm_num,
    C7_no_duration_validation ⟨some (854, 480), 30, 0, 60⟩ (by norm_num)⟩

/-- External outcomes feeding one create_video run: the per-image clip
results (None when _create_image_clip failed on that image), the audio
decode outcome, the parsed subtitle cues and the encoder outcome. -/
structure RunEnv where
  imageClips : List (Option ImgClip)
  audioDecode : Except String ℚ
  subtitles : List Subtitle
  saveResult : Except String Unit

/-- Embeds the body of VideoComposer.create_video (lines 79-107), i.e. the
contents of its try block: collect the image clips, fail the run (return
False) when none decode, concatenate them, reconcile the audio, overlay the
subtitles and save.  Only _save_video re-raises; every other helper
swallows its own errors. -/
def create_video_body (syncMode : String) (env : RunEnv) : Except String Bool :=
  let clips := env.imageClips.filterMap id
  if clips.isEmpty then
    Except.ok false
  else
    let videoDur := (clips.map (fun c => c.duration)).sum
    let av := add_audio_try syncMode env.audioDecode videoDur
    let _overlays := add_subtitles env.subtitles av.videoDur
    match env.saveResult with
    | Except.error e => Except.error e
    | Except.ok _ => Except.ok true

/-- Embeds VideoComposer.create_video (lines 60-112): the body runs inside
try/except Exception, which logs any escaping error and returns False. -/
def create_video (syncMode : String) (env : RunEnv) : Except String Bool :=
  match create_video_body syncMode env with
  | Except.error _ => Except.ok false
  | Except.ok b => Except.ok b

/-- Claim C6 (counterexample): a run whose single audio track cannot be
decoded does not fail at all, let alone with a NoAudioTrackError: with one
good image and a working encoder, create_video returns True and simply
proceeds without audio. -/
theorem C6_counterexample :
    create_video "loop_audio"
      { imageClips := [some ⟨"temp/resized_a.jpg", 4, 24, true⟩]
        audioDecode := Except.error "decode failed"
        subtitles := []
        saveResult := Except.ok () } = Except.ok true := rfl

/-- Claim C9: create_video is total over its inputs — it always returns a
boolean and never propagates an error to the caller; in particular an
encoder failure raised out of _save_video is caught at the top level and
the run yields False. -/
theorem C9_create_video_total :
    (∀ (syncMode : String) (env : RunEnv),
        (create_video syncMode env).isOk = true) ∧
    (∀ (syncMode : String) (imgs : List (Option ImgClip))
        (ad : Except String ℚ) (subs : List Subtitle) (e : String),
        create_video syncMode
          { imageClips := imgs, audioDecode := ad, subtitles := subs,
            saveResult := Except.error e } = Except.ok false) := by
  constructor
  · intro syncMode env
    cases h : create_video_body syncMode env <;>
      simp [create_video, h, Except.isOk, Except.toBool]
  · intro syncMode imgs ad subs e
    cases h : (imgs.filterMap id).isEmpty <;>
      simp [create_video, create_video_body, h]

end VideoMaker
